import Mathlib

/-!
# Verification of `weed/filesys/file.go` (File node of the FUSE layer)

Shallow embedding of the File-node operations of `weed/filesys/file.go`:
the chunk data model, the truncation loop of `Setattr`, the merge-horizon
selection of `addChunks`, `maybeLoadEntry`, `Attr`, the xattr operations,
`saveEntry`, and the dirty-metadata flush discipline.

Machine integers are modelled as `Nat` (unsigned fields) and `Int` (signed
fields); the source performs no wrapping arithmetic on the modelled paths.
A Go panic (nil-slice index) is modelled as `Option.none`.  Remote calls
(`wfs.maybeLoadEntry`, `client.UpdateEntry`) are oracles passed in as
arguments.  Helpers that live in packages outside these sources
(`filer.FileSize`, `filer.NonOverlappingVisibleIntervals`,
`filer.MergeIntoVisibles`, the xattr helpers) are modelled from the spec
and marked as such in their doc comments.
-/

/-- A file chunk, from `filer_pb.FileChunk`: the fields the File node reads
(`Fid.FileKey` as the tie-break key, `Offset`, `Size`, `Mtime`). -/
structure FileChunk where
  fileKey : Nat
  offset  : Int
  size    : Nat
  mtime   : Int
deriving Repr, DecidableEq

/-- Entry attributes, from `filer_pb.FuseAttributes`: the fields mutated or
read by `Setattr`/`Attr`. -/
structure Attributes where
  fileSize : Nat
  fileMode : Nat
  uid      : Nat
  gid      : Nat
  crtime   : Int
  mtime    : Int
deriving Repr, DecidableEq

/-- A file entry, from `filer_pb.Entry`: metadata attributes, the chunk
list, the hard-link id (empty list = not a hard link), the hard-link
counter, and the extended-attribute map (assoc list). -/
structure Entry where
  attributes      : Attributes
  chunks          : List FileChunk
  hardLinkId      : List Nat
  hardLinkCounter : Int
  extended        : List (String × List Nat)
deriving Repr, DecidableEq

/-- A visible byte interval of the derived view cache
(`filer.VisibleInterval`): a half-open range `[start, stop)` attributed to
one chunk. -/
structure VisibleInterval where
  start   : Int
  stop    : Int
  fileKey : Nat
  mtime   : Int
deriving Repr, DecidableEq

/-- The File node, from `type File struct`: the cached entry (nil pointer =
`none`), the derived visible-interval cache, the open-handle count, the
lazily built reader (modelled as an opaque token; `none` = no reader), and
the dirty-metadata flag.  The lock fields model concurrency only and carry
no sequential state. -/
structure File where
  entry          : Option Entry
  entryViewCache : List VisibleInterval
  isOpen         : Int
  reader         : Option Nat
  dirtyMetadata  : Bool
deriving Repr, DecidableEq

/-- Process-wide collaborator state reachable from the File node: the local
metadata-cache mirror entry for this path (`wfs.metaCache`) and the outcome
of the next remote `UpdateEntry` call (`true` = the RPC succeeds). -/
structure Wfs where
  metaCache : Option Entry
  updateOk  : Bool
deriving Repr, DecidableEq

/-- Combined sequential state of one File node and its collaborators. -/
structure St where
  file : File
  wfs  : Wfs
deriving Repr, DecidableEq

/-- Error codes surfaced by the File node (`fuse.ENOENT`, `fuse.EIO`, and
the invalid-argument code of the spec's error taxonomy). -/
inductive Err where
  | enoent
  | eio
  | einval
deriving Repr, DecidableEq

/-- `blockSize` constant of `file.go`. -/
def blockSize : Nat := 512

/-- `lessThan(a, b)` of `file.go`: the total order on chunks — mtime first,
`Fid.FileKey` as tie-break. -/
def lessThan (a b : FileChunk) : Bool :=
  if a.mtime == b.mtime then a.fileKey < b.fileKey else a.mtime < b.mtime

/-- Insertion into a list sorted by the boolean relation `le`. -/
def insertBy {α : Type} (le : α → α → Bool) (c : α) : List α → List α
  | [] => [c]
  | x :: xs => if le c x then c :: x :: xs else x :: insertBy le c xs

/-- Insertion sort by the boolean relation `le` (models `sort.Slice`). -/
def sortBy {α : Type} (le : α → α → Bool) (l : List α) : List α :=
  l.foldr (insertBy le) []

/-- Modelled from the spec: `filer.MergeIntoVisibles` (the `filer` package
is not among these sources).  Feeding one chunk — newer than everything
already resolved — into a non-overlapping interval set: the sub-ranges of
existing intervals overlapped by the chunk are re-attributed to it,
i.e. each existing interval is clipped to its parts outside the chunk's
range, the chunk's own interval is added, and the set is kept sorted by
start. -/
def mergeIntoVisibles (vis : List VisibleInterval) (c : FileChunk) : List VisibleInterval :=
  let cs : Int := c.offset
  let ce : Int := c.offset + (c.size : Int)
  let clipped : List VisibleInterval :=
    vis.foldr (fun v acc =>
      (if v.start < cs then [{ v with stop := min v.stop cs }] else []) ++
      (if ce < v.stop then [{ v with start := max v.start ce }] else []) ++ acc) []
  let withNew :=
    if cs < ce then clipped ++ [⟨cs, ce, c.fileKey, c.mtime⟩] else clipped
  sortBy (fun a b => a.start ≤ b.start) withNew

/-- Modelled from the spec: `filer.NonOverlappingVisibleIntervals` (the
`filer` package is not among these sources).  Resolves a chunk list from
scratch: sort the chunks oldest-first by the total order and feed them one
by one into the resolver.  The chunk-location lookup function passed by the
source is used only for manifest resolution, which is out of scope. -/
def nonOverlappingVisibleIntervals (cs : List FileChunk) : List VisibleInterval :=
  (sortBy lessThan cs).foldl mergeIntoVisibles []

/-- Modelled from the spec: `filer.TotalSize` — the byte range covered by a
chunk list, the running maximum of `offset + size`. -/
def TotalSize (cs : List FileChunk) : Nat :=
  cs.foldl (fun acc c => max acc (c.offset + (c.size : Int)).toNat) 0

/-- Modelled from the spec: `filer.FileSize` — the persisted size of an
entry, the larger of the recorded metadata size and the byte range covered
by its chunks. -/
def FileSize (e : Entry) : Nat :=
  max (TotalSize e.chunks) e.attributes.fileSize

/-- The truncation loop of `Setattr` (`file.go` lines 135–151): for each
chunk, when `chunk.Offset + int64(chunk.Size) > int64(req.Size)` the chunk
is either kept with its size shrunk to `req.Size - chunk.Offset` (when that
is positive) or dropped; a chunk that does not satisfy the comparison is
not appended to the surviving list either. -/
def truncateChunks (cs : List FileChunk) (reqSize : Nat) : List FileChunk :=
  cs.foldr (fun c acc =>
    let int64Size : Int := (c.size : Int)
    if c.offset + int64Size > (reqSize : Int) then
      let int64Size' : Int := (reqSize : Int) - c.offset
      if int64Size' > 0 then { c with size := int64Size'.toNat } :: acc
      else acc
    else acc) []

/-- The merge-horizon scan of `addChunks` (`file.go` lines 302–308): start
from `newChunks[0]` and replace the candidate by `newChunks[i]` whenever
`lessThan(candidate, newChunks[i])` holds.  `none` models the Go panic on
an empty slice (`newChunks[0]` out of range). -/
def mergeHorizon (cs : List FileChunk) : Option FileChunk :=
  match cs with
  | [] => none
  | c0 :: rest =>
      some (rest.foldl (fun acc c => if lessThan acc c then c else acc) c0)

/-- `setEntry` of `file.go`: store the entry, recompute the view cache from
its chunk list, drop the reader. -/
def setEntryF (f : File) (e : Entry) : File :=
  { f with entry := some e
         , entryViewCache := nonOverlappingVisibleIntervals e.chunks
         , reader := none }

/-- `clearEntry` of `file.go`: drop the entry, the view cache and the
reader. -/
def clearEntryF (f : File) : File :=
  { f with entry := none, entryViewCache := [], reader := none }

/-- `Forget` of `file.go`, restricted to the node-local state: the reader
is dropped; removal from the process-wide node cache and handle release are
external. -/
def forgetF (f : File) : File :=
  { f with reader := none }

/-- The load branch of `maybeLoadEntry` (`file.go` lines 279–289): consult
the remote oracle; on error propagate it, on a found entry call `setEntry`,
on a missing entry return `none` with no error. -/
def loadRemote (f : File) (remote : Except Err (Option Entry)) :
    Except Err (Option Entry × File) :=
  match remote with
  | .error er => .error er
  | .ok (some en) => .ok (some en, setEntryF f en)
  | .ok none => .ok (none, f)

/-- `maybeLoadEntry` of `file.go`: with an open handle the cached entry is
returned as is; otherwise a cached entry with an empty hard-link id is
returned as is, and in the remaining cases (no cached entry, or a cached
hard-link entry) the entry is reloaded from the remote service. -/
def maybeLoadEntryF (f : File) (remote : Except Err (Option Entry)) :
    Except Err (Option Entry × File) :=
  if f.isOpen > 0 then .ok (f.entry, f)
  else
    match f.entry with
    | some e =>
        if e.hardLinkId.length == 0 then .ok (f.entry, f)
        else loadRemote f remote
    | none => loadRemote f remote

/-- `addChunks` of `file.go`.  `none` models the panic on an empty incoming
batch (the `newChunks[0]` access).  With the entry absent the function
returns with the state untouched.  Otherwise the existing chunks newer than
the horizon are folded in, the combined batch is sorted by the total order
and fed through the resolver, the reader is dropped, and the incoming batch
(only) is appended to the entry's chunk list. -/
def addChunksF (f : File) (chunks : List FileChunk) : Option File :=
  match mergeHorizon chunks with
  | none => none
  | some earliestChunk =>
      match f.entry with
      | none => some f
      | some entry =>
          let folded := chunks ++ entry.chunks.filter (fun c => lessThan earliestChunk c)
          let sorted := sortBy lessThan folded
          let evc := sorted.foldl mergeIntoVisibles f.entryViewCache
          some { f with
                   entry := some { entry with chunks := entry.chunks ++ chunks }
                 , entryViewCache := evc
                 , reader := none }

/-- `saveEntry` of `file.go`: flush the entry through the remote
`UpdateEntry` RPC (its outcome is the `updateOk` oracle).  On failure
return `fuse.EIO` and change nothing; on success mirror the entry into the
local metadata cache.  The volume-id remapping helpers
(`mapPbIdFromLocalToFiler` / `...ToLocal`) live outside these sources and
are identity on the modelled fields. -/
def saveEntryF (st : St) (e : Entry) : St × Except Err Unit :=
  if st.wfs.updateOk then
    ({ st with wfs := { st.wfs with metaCache := some e } }, .ok ())
  else
    (st, .error .eio)

/-- A `fuse.SetattrRequest`'s valid mask, restricted to the bits `Setattr`
reads (the handle bit has an empty branch). -/
structure SetattrValid where
  size   : Bool
  mode   : Bool
  uid    : Bool
  gid    : Bool
  crtime : Bool
  mtime  : Bool
deriving Repr, DecidableEq

/-- A `fuse.SetattrRequest`, restricted to the fields `Setattr` reads. -/
structure SetattrRequest where
  valid  : SetattrValid
  size   : Nat
  mode   : Nat
  uid    : Nat
  gid    : Nat
  crtime : Int
  mtime  : Int
deriving Repr, DecidableEq

/-- The `req.Valid.Size()` block of `Setattr` (`file.go` lines 130–158):
below the current `filer.FileSize` the chunk list is passed through the
truncation loop, the view cache is recomputed from scratch from the
surviving chunks, and the reader is dropped; in every case the recorded
`FileSize` attribute becomes `req.Size` and the node goes dirty. -/
def applySizeA (fe : File × Entry) (req : SetattrRequest) : File × Entry :=
  if req.valid.size then
    let f := fe.1
    let e := fe.2
    let fe' :=
      if req.size < FileSize e then
        let chunks := truncateChunks e.chunks req.size
        ({ f with entryViewCache := nonOverlappingVisibleIntervals chunks
                , reader := none },
         { e with chunks := chunks })
      else (f, e)
    ({ fe'.1 with dirtyMetadata := true },
     { fe'.2 with attributes := { fe'.2.attributes with fileSize := req.size } })
  else fe

/-- The `req.Valid.Mode()` block of `Setattr`. -/
def applyModeA (fe : File × Entry) (req : SetattrRequest) : File × Entry :=
  if req.valid.mode then
    ({ fe.1 with dirtyMetadata := true },
     { fe.2 with attributes := { fe.2.attributes with fileMode := req.mode } })
  else fe

/-- The `req.Valid.Uid()` block of `Setattr`. -/
def applyUidA (fe : File × Entry) (req : SetattrRequest) : File × Entry :=
  if req.valid.uid then
    ({ fe.1 with dirtyMetadata := true },
     { fe.2 with attributes := { fe.2.attributes with uid := req.uid } })
  else fe

/-- The `req.Valid.Gid()` block of `Setattr`. -/
def applyGidA (fe : File × Entry) (req : SetattrRequest) : File × Entry :=
  if req.valid.gid then
    ({ fe.1 with dirtyMetadata := true },
     { fe.2 with attributes := { fe.2.attributes with gid := req.gid } })
  else fe

/-- The `req.Valid.Crtime()` block of `Setattr`. -/
def applyCrtimeA (fe : File × Entry) (req : SetattrRequest) : File × Entry :=
  if req.valid.crtime then
    ({ fe.1 with dirtyMetadata := true },
     { fe.2 with attributes := { fe.2.attributes with crtime := req.crtime } })
  else fe

/-- The `req.Valid.Mtime()` block of `Setattr`. -/
def applyMtimeA (fe : File × Entry) (req : SetattrRequest) : File × Entry :=
  if req.valid.mtime then
    ({ fe.1 with dirtyMetadata := true },
     { fe.2 with attributes := { fe.2.attributes with mtime := req.mtime } })
  else fe

/-- The attribute-mutation sequence of `Setattr`, the six valid-bit blocks
in source order. -/
def setattrMutate (fe : File × Entry) (req : SetattrRequest) : File × Entry :=
  applyMtimeA (applyCrtimeA (applyGidA (applyUidA (applyModeA (applySizeA fe req) req) req) req) req) req

/-- The body of `Setattr` after `maybeLoadEntry` returned the (aliased)
entry `e`: run the mutation blocks, then return early with success while a
handle is open, return early when the node is clean, and otherwise invoke
`saveEntry`.  The `Bool` of the result records whether `saveEntry` was
invoked.  The mutated entry aliases `file.entry` in the source, hence the
node's entry is the mutated one on every path. -/
def setattrWithEntry (st : St) (e : Entry) (req : SetattrRequest) :
    St × Bool × Except Err Unit :=
  let fe := setattrMutate (st.file, e) req
  let st1 : St := { st with file := { fe.1 with entry := some fe.2 } }
  if st1.file.isOpen > 0 then (st1, false, .ok ())
  else if st1.file.dirtyMetadata = false then (st1, false, .ok ())
  else
    let sr := saveEntryF st1 fe.2
    (sr.1, true, sr.2)

/-- `Setattr` of `file.go` end to end: `maybeLoadEntry` first (errors
propagate), then the body.  `none` models the nil-pointer panic of the
source when no entry could be produced (every mutation block dereferences
`entry`). -/
def SetattrF (st : St) (req : SetattrRequest) (remote : Except Err (Option Entry)) :
    Option (St × Bool × Except Err Unit) :=
  match maybeLoadEntryF st.file remote with
  | .error er => some (st, false, .error er)
  | .ok (none, _) => none
  | .ok (some e, f1) => some (setattrWithEntry { st with file := f1 } e req)

/-- An xattr mutation request: name, value, and a validity flag standing
for the spec's invalid-argument case (malformed request). -/
structure XattrReq where
  name  : String
  value : List Nat
  valid : Bool
deriving Repr, DecidableEq

/-- Modelled from the spec: the `setxattr` helper (defined outside these
sources) — a thin mutation on the entry's key-value map; a malformed
request yields invalid-argument, a missing entry an error. -/
def xattrSet (e : Entry) (req : XattrReq) : Entry :=
  { e with extended := (req.name, req.value) :: e.extended.filter (fun kv => kv.1 != req.name) }

/-- Modelled from the spec: the `removexattr` helper (defined outside these
sources) — removes the key from the entry's key-value map. -/
def xattrRemove (e : Entry) (req : XattrReq) : Entry :=
  { e with extended := e.extended.filter (fun kv => kv.1 != req.name) }

/-- `Setxattr` of `file.go`: `maybeLoadEntry`, the (spec-modelled) local
map mutation, then an unconditional `saveEntry`.  The `Bool` records
whether `saveEntry` was invoked. -/
def SetxattrF (st : St) (req : XattrReq) (remote : Except Err (Option Entry)) :
    St × Bool × Except Err Unit :=
  match maybeLoadEntryF st.file remote with
  | .error er => (st, false, .error er)
  | .ok (none, f1) => ({ st with file := f1 }, false, .error .eio)
  | .ok (some e, f1) =>
      if req.valid = false then ({ st with file := f1 }, false, .error .einval)
      else
        let e' := xattrSet e req
        let st1 : St := { st with file := { f1 with entry := some e' } }
        let sr := saveEntryF st1 e'
        (sr.1, true, sr.2)

/-- `Removexattr` of `file.go`: `maybeLoadEntry`, the (spec-modelled) local
map removal, then an unconditional `saveEntry`.  The `Bool` records whether
`saveEntry` was invoked. -/
def RemovexattrF (st : St) (req : XattrReq) (remote : Except Err (Option Entry)) :
    St × Bool × Except Err Unit :=
  match maybeLoadEntryF st.file remote with
  | .error er => (st, false, .error er)
  | .ok (none, f1) => ({ st with file := f1 }, false, .error .eio)
  | .ok (some e, f1) =>
      if req.valid = false then ({ st with file := f1 }, false, .error .einval)
      else
        let e' := xattrRemove e req
        let st1 : St := { st with file := { f1 with entry := some e' } }
        let sr := saveEntryF st1 e'
        (sr.1, true, sr.2)

/-- The `fuse.Attr` record, restricted to the fields `Attr` fills from the
entry (`Valid` and `BlockSize` come from the clock and the mount options,
outside these sources; `Nlink` defaults to 1 in the bridge). -/
structure FuseAttr where
  mode   : Nat
  size   : Nat
  crtime : Int
  mtime  : Int
  gid    : Nat
  uid    : Nat
  blocks : Nat
  nlink  : Nat
deriving Repr, DecidableEq

/-- `Attr` of `file.go`: with no open handle or no cached entry the entry
goes through `maybeLoadEntry`; a still-missing entry is `ENOENT`; the size
reported is `filer.FileSize(entry)`, overridden by the recorded `FileSize`
attribute while a handle is open. -/
def AttrF (f : File) (remote : Except Err (Option Entry)) :
    Except Err (FuseAttr × File) :=
  let loaded : Except Err (Option Entry × File) :=
    if f.isOpen ≤ 0 ∨ f.entry = none then maybeLoadEntryF f remote
    else .ok (f.entry, f)
  match loaded with
  | .error er => .error er
  | .ok (none, _) => .error .enoent
  | .ok (some e, f1) =>
      let size := if f1.isOpen > 0 then e.attributes.fileSize else FileSize e
      .ok ({ mode := e.attributes.fileMode
           , size := size
           , crtime := e.attributes.crtime
           , mtime := e.attributes.mtime
           , gid := e.attributes.gid
           , uid := e.attributes.uid
           , blocks := size / blockSize + 1
           , nlink := if e.hardLinkCounter > 0 then e.hardLinkCounter.toNat else 1 }, f1)

/-- Projection used by the attribute-size statements: the size field of a
successful `Attr` result. -/
def attrSizeOf (r : Except Err (FuseAttr × File)) : Option Nat :=
  match r with
  | .ok (a, _) => some a.size
  | .error _ => none

/-- Shorthand for "some attribute was requested": the disjunction of the
six valid bits `Setattr` inspects. -/
def anyValidBit (v : SetattrValid) : Bool :=
  v.size || v.mode || v.uid || v.gid || v.crtime || v.mtime

theorem saveEntryF_file (st : St) (e : Entry) : (saveEntryF st e).1.file = st.file := by
  unfold saveEntryF
  split <;> rfl

theorem setEntryF_frame (f : File) (e : Entry) :
    (setEntryF f e).dirtyMetadata = f.dirtyMetadata ∧ (setEntryF f e).isOpen = f.isOpen := by
  exact ⟨rfl, rfl⟩

theorem maybeLoadEntryF_frame (f : File) (remote : Except Err (Option Entry))
    (eo : Option Entry) (f1 : File)
    (h : maybeLoadEntryF f remote = Except.ok (eo, f1)) :
    f1.dirtyMetadata = f.dirtyMetadata ∧ f1.isOpen = f.isOpen := by
  unfold maybeLoadEntryF loadRemote at h
  repeat' split at h
  all_goals
    first
      | exact Except.noConfusion h
      | (simp only [Except.ok.injEq, Prod.mk.injEq] at h
         obtain ⟨h1, h2⟩ := h
         subst h2
         exact ⟨rfl, rfl⟩)

theorem setattrMutate_fields (f : File) (e : Entry) (req : SetattrRequest) :
    (setattrMutate (f, e) req).1.isOpen = f.isOpen ∧
    (setattrMutate (f, e) req).1.dirtyMetadata = (f.dirtyMetadata || anyValidBit req.valid) := by
  rcases hv : req.valid with ⟨vs, vm, vu, vg, vc, vt⟩
  cases vs <;> cases vm <;> cases vu <;> cases vg <;> cases vc <;> cases vt <;>
    simp [setattrMutate, applySizeA, applyModeA, applyUidA, applyGidA, applyCrtimeA,
          applyMtimeA, anyValidBit, hv] <;>
    split <;> simp

theorem setattrWithEntry_dirty (st : St) (e : Entry) (req : SetattrRequest) :
    (setattrWithEntry st e req).1.file.dirtyMetadata =
      (st.file.dirtyMetadata || anyValidBit req.valid) := by
  unfold setattrWithEntry
  dsimp only
  split
  · exact (setattrMutate_fields st.file e req).2
  · split
    · exact (setattrMutate_fields st.file e req).2
    · rw [saveEntryF_file]
      exact (setattrMutate_fields st.file e req).2

theorem setattrWithEntry_flushed (st : St) (e : Entry) (req : SetattrRequest) :
    (setattrWithEntry st e req).2.1 = true ↔
      (st.file.isOpen ≤ 0 ∧ (st.file.dirtyMetadata || anyValidBit req.valid) = true) := by
  unfold setattrWithEntry
  dsimp only
  have hopen : (setattrMutate (st.file, e) req).1.isOpen = st.file.isOpen :=
    (setattrMutate_fields st.file e req).1
  have hdirty : (setattrMutate (st.file, e) req).1.dirtyMetadata =
      (st.file.dirtyMetadata || anyValidBit req.valid) :=
    (setattrMutate_fields st.file e req).2
  split
  · rename_i hgt
    simp only [hopen] at hgt
    simp [not_le.mpr hgt]
  · rename_i hle
    simp only [hopen] at hle
    split
    · rename_i hclean
      simp only [hdirty] at hclean
      simp [hclean, le_of_not_lt hle]
    · rename_i hd
      simp only [hdirty] at hd
      have hd' : (st.file.dirtyMetadata || anyValidBit req.valid) = true := by
        revert hd
        cases (st.file.dirtyMetadata || anyValidBit req.valid) <;> simp
      simp [le_of_not_lt hle, hd']

theorem setattrWithEntry_open (st : St) (e : Entry) (req : SetattrRequest)
    (h : st.file.isOpen > 0) :
    (setattrWithEntry st e req).2.1 = false ∧
    (setattrWithEntry st e req).2.2 = Except.ok () := by
  unfold setattrWithEntry
  dsimp only
  have hopen := (setattrMutate_fields st.file e req).1
  rw [hopen, if_pos h]
  exact ⟨rfl, rfl⟩

theorem SetxattrF_dirty (st : St) (req : XattrReq) (remote : Except Err (Option Entry)) :
    (SetxattrF st req remote).1.file.dirtyMetadata = st.file.dirtyMetadata := by
  cases h : maybeLoadEntryF st.file remote with
  | error er => simp [SetxattrF, h]
  | ok p =>
      obtain ⟨eo, f1⟩ := p
      have hf := (maybeLoadEntryF_frame st.file remote eo f1 h).1
      cases eo with
      | none => simp [SetxattrF, h, hf]
      | some e =>
          by_cases hv : req.valid = false
          · simp [SetxattrF, h, hv, hf]
          · simp [SetxattrF, h, hv, saveEntryF_file, hf]

theorem RemovexattrF_dirty (st : St) (req : XattrReq) (remote : Except Err (Option Entry)) :
    (RemovexattrF st req remote).1.file.dirtyMetadata = st.file.dirtyMetadata := by
  cases h : maybeLoadEntryF st.file remote with
  | error er => simp [RemovexattrF, h]
  | ok p =>
      obtain ⟨eo, f1⟩ := p
      have hf := (maybeLoadEntryF_frame st.file remote eo f1 h).1
      cases eo with
      | none => simp [RemovexattrF, h, hf]
      | some e =>
          by_cases hv : req.valid = false
          · simp [RemovexattrF, h, hv, hf]
          · simp [RemovexattrF, h, hv, saveEntryF_file, hf]

theorem addChunksF_frame (f : File) (cs : List FileChunk) (g : File)
    (h : addChunksF f cs = some g) :
    g.dirtyMetadata = f.dirtyMetadata ∧ g.isOpen = f.isOpen := by
  unfold addChunksF at h
  repeat' split at h
  all_goals
    first
      | exact Option.noConfusion h
      | (cases Option.some.inj h; exact ⟨rfl, rfl⟩)

theorem AttrF_frame (f : File) (remote : Except Err (Option Entry)) (a : FuseAttr) (g : File)
    (h : AttrF f remote = Except.ok (a, g)) :
    g.dirtyMetadata = f.dirtyMetadata ∧ g.isOpen = f.isOpen := by
  unfold AttrF at h
  dsimp only at h
  by_cases hc : f.isOpen ≤ 0 ∨ f.entry = none
  · rw [if_pos hc] at h
    cases hl : maybeLoadEntryF f remote with
    | error er => rw [hl] at h; exact Except.noConfusion h
    | ok p =>
        obtain ⟨eo, f1⟩ := p
        rw [hl] at h
        have hf := maybeLoadEntryF_frame f remote eo f1 hl
        cases eo with
        | none => exact Except.noConfusion h
        | some e =>
            simp only [Except.ok.injEq, Prod.mk.injEq] at h
            obtain ⟨h1, h2⟩ := h
            subst h2
            exact hf
  · rw [if_neg hc] at h
    cases hfe : f.entry with
    | none => exact absurd (Or.inr hfe) hc
    | some e =>
        rw [hfe] at h
        simp only [Except.ok.injEq, Prod.mk.injEq] at h
        obtain ⟨h1, h2⟩ := h
        subst h2
        exact ⟨rfl, rfl⟩

/-- Sample chunk covering bytes 0–10: it lies entirely below the new size
15 used by the truncation scenario. -/
def chunkLow : FileChunk := { fileKey := 1, offset := 0, size := 10, mtime := 5 }

/-- Sample chunk covering bytes 10–20: it straddles the new size 15. -/
def chunkStraddle : FileChunk := { fileKey := 2, offset := 10, size := 10, mtime := 6 }

/-- Sample entry of size 20 made of the two chunks above. -/
def entryW : Entry :=
  { attributes := { fileSize := 20, fileMode := 420, uid := 1000, gid := 1000
                  , crtime := 3, mtime := 4 }
  , chunks := [chunkLow, chunkStraddle]
  , hardLinkId := []
  , hardLinkCounter := 0
  , extended := [] }

/-- Sample node state holding `entryW`, not open, clean, with a remote that
accepts updates. -/
def stTrunc : St :=
  { file := { entry := some entryW, entryViewCache := [], isOpen := 0
            , reader := none, dirtyMetadata := false }
  , wfs := { metaCache := none, updateOk := true } }

/-- Setattr request truncating to size 15. -/
def reqTrunc : SetattrRequest :=
  { valid := { size := true, mode := false, uid := false, gid := false
             , crtime := false, mtime := false }
  , size := 15, mode := 0, uid := 0, gid := 0, crtime := 0, mtime := 0 }

/-- C1: the claim says the truncation branch of `Setattr` retains unchanged
every chunk lying entirely within `new_size`.  The code does not: the loop
appends a chunk to the surviving list only inside the
`chunk.Offset + size > req.Size` branch, so a chunk entirely below the new
boundary is dropped.  At the failing input — chunks `[0,10)` and `[10,20)`,
truncated to 15 — the chunk `[0,10)` lies entirely within the new size yet
the surviving list, and the entry produced by the `Setattr` body, contain
only the shrunk straddling chunk. -/
theorem c1_truncation_drops_interior_chunk :
    chunkLow ∈ entryW.chunks ∧
    chunkLow.offset + (chunkLow.size : Int) ≤ 15 ∧
    truncateChunks entryW.chunks 15 = [{ chunkStraddle with size := 5 }] ∧
    ((setattrWithEntry stTrunc entryW reqTrunc).1.file.entry.map Entry.chunks)
      = some [{ chunkStraddle with size := 5 }] := by
  refine ⟨by decide, by decide, by decide, by decide⟩

/-- Oldest chunk of the sample incoming batch (mtime 10). -/
def chunkOldest : FileChunk := { fileKey := 1, offset := 0, size := 10, mtime := 10 }

/-- Newest chunk of the sample incoming batch (mtime 30). -/
def chunkNewest : FileChunk := { fileKey := 2, offset := 10, size := 10, mtime := 30 }

/-- An existing chunk with mtime 20: newer than the oldest incoming chunk,
older than the newest one. -/
def chunkBetween : FileChunk := { fileKey := 3, offset := 0, size := 5, mtime := 20 }

/-- C2: the claim (and the source comment "find the earliest incoming
chunk") says the merge horizon is the oldest chunk of the batch.  The scan
replaces the candidate whenever `lessThan(candidate, newChunks[i])`, which
keeps the maximum of the total order: on the batch
`[chunkOldest, chunkNewest]` (in either order) the horizon computed is
`chunkNewest`, the strictly newer chunk.  Consequently an existing chunk
such as `chunkBetween` — newer than the oldest incoming chunk, so the spec
folds it into the merge — fails the fold test `lessThan(horizon, chunk)`
against the computed horizon. -/
theorem c2_merge_horizon_selects_newest :
    mergeHorizon [chunkOldest, chunkNewest] = some chunkNewest ∧
    mergeHorizon [chunkNewest, chunkOldest] = some chunkNewest ∧
    lessThan chunkOldest chunkNewest = true ∧
    lessThan chunkOldest chunkBetween = true ∧
    lessThan chunkNewest chunkBetween = false := by decide

/-- C3 counterexample: the claim says `addChunks` with an empty incoming
batch is a no-op that leaves the state unchanged.  The code reads
`newChunks[0]` before any emptiness or entry check, so the empty batch hits
the out-of-range access (modelled as `none`) instead of returning the state
unchanged. -/
theorem c3_counterexample_empty_batch :
    addChunksF stTrunc.file [] = none := rfl

/-- C3 amended: `addChunks` applied to an empty incoming batch always
reaches the first-element access and fails (panics), for every node state;
it is not a no-op, and callers must never pass an empty batch. -/
theorem c3_amended_empty_batch_fails (f : File) :
    addChunksF f [] = none := rfl

/-- Sample node state with no cached entry but a non-trivial view cache,
reader and dirty flag, used to exhibit the nil-entry early return. -/
def fileNilEntry : File :=
  { entry := none
  , entryViewCache := [{ start := 0, stop := 5, fileKey := 1, mtime := 1 }]
  , isOpen := 2
  , reader := some 3
  , dirtyMetadata := true }

/-- C10: when the node's entry is nil, `addChunks` with a non-empty batch
returns right after the horizon scan: the visible-interval cache, the
reader and the (absent) entry are all unchanged — the whole node state is
returned as it was — and the incoming chunks are discarded. -/
theorem c10_addChunks_nil_entry_noop (f : File) (cs : List FileChunk)
    (h1 : f.entry = none) (h2 : cs ≠ []) :
    addChunksF f cs = some f := by
  cases cs with
  | nil => exact absurd rfl h2
  | cons c0 rest => simp [addChunksF, mergeHorizon, h1]

/-- Witness for C10: the nil-entry state is returned unchanged on a
concrete non-empty batch. -/
theorem c10_addChunks_nil_entry_noop_witness :
    fileNilEntry.entry = none ∧ [chunkOldest] ≠ ([] : List FileChunk) ∧
    addChunksF fileNilEntry [chunkOldest] = some fileNilEntry :=
  ⟨rfl, by decide, c10_addChunks_nil_entry_noop fileNilEntry [chunkOldest] rfl (by decide)⟩

/-- Sample hard-link entry (non-empty hard-link id), cached size 7. -/
def entryHL : Entry :=
  { attributes := { fileSize := 7, fileMode := 420, uid := 0, gid := 0
                  , crtime := 1, mtime := 2 }
  , chunks := []
  , hardLinkId := [9]
  , hardLinkCounter := 2
  , extended := [] }

/-- The remote copy of the hard-link entry, with a different size 9. -/
def entryHLRemote : Entry :=
  { entryHL with attributes := { entryHL.attributes with fileSize := 9 } }

/-- Node caching the hard-link entry with one open handle. -/
def fileHLOpen : File :=
  { entry := some entryHL, entryViewCache := [], isOpen := 1
  , reader := none, dirtyMetadata := false }

/-- Node caching the hard-link entry with no open handle. -/
def fileHLClosed : File := { fileHLOpen with isOpen := 0 }

/-- C4 counterexample: the claim says a cached entry with a non-empty
hard-link id is always reloaded from the remote service, regardless of the
open count.  With one handle open, `maybeLoadEntry` returns on the
`isOpen > 0` check before any hard-link inspection: the stale cached entry
(size 7) is returned as is even though the remote holds a different entry
(size 9). -/
theorem c4_counterexample_hardlink_cached_while_open :
    entryHL.hardLinkId ≠ [] ∧ fileHLOpen.isOpen > 0 ∧
    maybeLoadEntryF fileHLOpen (Except.ok (some entryHLRemote)) =
      Except.ok (some entryHL, fileHLOpen) ∧
    entryHL ≠ entryHLRemote := by
  refine ⟨by decide, by decide, rfl, by decide⟩

/-- C4 amended: the unconditional hard-link reload holds only while no
handle is open.  `maybeLoadEntry` returns the cached entry untouched
whenever `isOpen > 0`; with `isOpen ≤ 0` a cached entry carrying a
non-empty hard-link id is reloaded through the remote service. -/
theorem c4_amended_reload_only_when_not_open (f : File)
    (remote : Except Err (Option Entry)) (e : Entry) :
    (f.isOpen > 0 → maybeLoadEntryF f remote = Except.ok (f.entry, f))
    ∧ (¬ f.isOpen > 0 → f.entry = some e → e.hardLinkId ≠ [] →
        maybeLoadEntryF f remote = loadRemote f remote) := by
  constructor
  · intro h
    simp [maybeLoadEntryF, h]
  · intro h he hh
    have hlen : (e.hardLinkId.length == 0) = false := by
      cases hl : e.hardLinkId with
      | nil => exact absurd hl hh
      | cons a as => simp [hl]
    simp [maybeLoadEntryF, h, he, hlen]

/-- Witness for C4 amended: the open node keeps its cached hard-link entry;
the closed node goes to the remote load branch. -/
theorem c4_amended_reload_only_when_not_open_witness :
    maybeLoadEntryF fileHLOpen (Except.ok (some entryHLRemote)) =
      Except.ok (fileHLOpen.entry, fileHLOpen) ∧
    maybeLoadEntryF fileHLClosed (Except.ok (some entryHLRemote)) =
      loadRemote fileHLClosed (Except.ok (some entryHLRemote)) :=
  ⟨(c4_amended_reload_only_when_not_open fileHLOpen (Except.ok (some entryHLRemote)) entryHL).1
      (by decide),
   (c4_amended_reload_only_when_not_open fileHLClosed (Except.ok (some entryHLRemote)) entryHL).2
      (by decide) rfl (by decide)⟩

/-- Node state with one open handle and a clean flag, for the xattr
scenarios. -/
def stXattrOpen : St :=
  { file := { entry := some entryW, entryViewCache := [], isOpen := 1
            , reader := none, dirtyMetadata := false }
  , wfs := { metaCache := none, updateOk := true } }

/-- A well-formed xattr mutation request. -/
def reqXattr : XattrReq := { name := "user.tag", value := [1, 2], valid := true }

/-- A remote lookup answer that the scenario never consumes. -/
def remoteUnused : Except Err (Option Entry) := Except.ok none

/-- C5 counterexample: the claim says a locally successful xattr mutation
marks the entry dirty and defers the flush while a handle is open.  With
one handle open and a clean node, `Setxattr` invokes `saveEntry`
immediately (the flush flag of the result is `true`) and leaves the dirty
flag `false`: the flush is neither deferred nor routed through the dirty
flag. -/
theorem c5_counterexample_xattr_flushes_while_open :
    stXattrOpen.file.isOpen > 0 ∧
    (SetxattrF stXattrOpen reqXattr remoteUnused).2.1 = true ∧
    (SetxattrF stXattrOpen reqXattr remoteUnused).1.file.dirtyMetadata = false := by
  refine ⟨by decide, rfl, rfl⟩

/-- C5 amended: a locally successful `Setxattr` or `Removexattr` flushes to
the remote service immediately and unconditionally — whether or not a
handle is open — and never touches the dirty flag. -/
theorem c5_amended_xattr_flush_unconditional (st : St) (req : XattrReq)
    (remote : Except Err (Option Entry)) (e : Entry) (f1 : File)
    (h : maybeLoadEntryF st.file remote = Except.ok (some e, f1))
    (hv : req.valid = true) :
    (SetxattrF st req remote).2.1 = true
    ∧ (SetxattrF st req remote).1.file.dirtyMetadata = st.file.dirtyMetadata
    ∧ (RemovexattrF st req remote).2.1 = true
    ∧ (RemovexattrF st req remote).1.file.dirtyMetadata = st.file.dirtyMetadata := by
  refine ⟨?_, SetxattrF_dirty st req remote, ?_, RemovexattrF_dirty st req remote⟩
  · simp [SetxattrF, h, hv]
  · simp [RemovexattrF, h, hv]

/-- Witness for C5 amended: with one handle open the flush still happens at
once and the dirty flag is untouched. -/
theorem c5_amended_xattr_flush_unconditional_witness :
    (SetxattrF stXattrOpen reqXattr remoteUnused).2.1 = true ∧
    (RemovexattrF stXattrOpen reqXattr remoteUnused).1.file.dirtyMetadata =
      stXattrOpen.file.dirtyMetadata :=
  ⟨(c5_amended_xattr_flush_unconditional stXattrOpen reqXattr remoteUnused entryW
      stXattrOpen.file rfl rfl).1,
   (c5_amended_xattr_flush_unconditional stXattrOpen reqXattr remoteUnused entryW
      stXattrOpen.file rfl rfl).2.2.2⟩

/-- C6: for every `Setattr` body run on a loaded entry, (1) the resulting
dirty flag is the old flag or-ed with the six requested-attribute bits —
hence each requested mutation (size, mode, uid, gid, crtime, mtime) sets
it; (2) `saveEntry` is invoked if and only if no handle is open and the
node ends dirty; (3) with a handle open the call returns success without
flushing; and (4) after a successful entry load, `Setattr` end to end is
exactly this body. -/
theorem c6_setattr_dirty_and_flush (st : St) (e : Entry) (req : SetattrRequest)
    (remote : Except Err (Option Entry)) (f1 : File) :
    (setattrWithEntry st e req).1.file.dirtyMetadata
        = (st.file.dirtyMetadata || anyValidBit req.valid)
    ∧ ((setattrWithEntry st e req).2.1 = true ↔
        (st.file.isOpen ≤ 0 ∧ (setattrWithEntry st e req).1.file.dirtyMetadata = true))
    ∧ (st.file.isOpen > 0 →
        (setattrWithEntry st e req).2.1 = false ∧
        (setattrWithEntry st e req).2.2 = Except.ok ())
    ∧ (maybeLoadEntryF st.file remote = Except.ok (some e, f1) →
        SetattrF st req remote = some (setattrWithEntry { st with file := f1 } e req)) := by
  refine ⟨setattrWithEntry_dirty st e req, ?_,
          fun h => setattrWithEntry_open st e req h, ?_⟩
  · rw [setattrWithEntry_dirty st e req]
    exact setattrWithEntry_flushed st e req
  · intro hm
    simp [SetattrF, hm]

/-- A `Setattr` request touching only the mode. -/
def reqMode : SetattrRequest :=
  { valid := { size := false, mode := true, uid := false, gid := false
             , crtime := false, mtime := false }
  , size := 0, mode := 493, uid := 0, gid := 0, crtime := 0, mtime := 0 }

/-- Witness for C6: on a clean closed node a mode change marks the node
dirty and flushes; on an open node the same request returns success without
flushing. -/
theorem c6_setattr_dirty_and_flush_witness :
    (setattrWithEntry stTrunc entryW reqMode).1.file.dirtyMetadata
        = (stTrunc.file.dirtyMetadata || anyValidBit reqMode.valid)
    ∧ ((setattrWithEntry stXattrOpen entryW reqMode).2.1 = false ∧
        (setattrWithEntry stXattrOpen entryW reqMode).2.2 = Except.ok ())
    ∧ SetattrF stTrunc reqMode remoteUnused =
        some (setattrWithEntry { stTrunc with file := stTrunc.file } entryW reqMode) :=
  ⟨(c6_setattr_dirty_and_flush stTrunc entryW reqMode remoteUnused stTrunc.file).1,
   (c6_setattr_dirty_and_flush stXattrOpen entryW reqMode remoteUnused stXattrOpen.file).2.2.1
      (by decide),
   (c6_setattr_dirty_and_flush stTrunc entryW reqMode remoteUnused stTrunc.file).2.2.2 rfl⟩

/-- Node with the sample entry cached and one open handle, for the `Attr`
scenarios. -/
def fileAttrOpen : File :=
  { entry := some entryW, entryViewCache := [], isOpen := 1
  , reader := none, dirtyMetadata := false }

/-- Same node with no open handle. -/
def fileAttrClosed : File := { fileAttrOpen with isOpen := 0 }

/-- C7: `Attr` reports the entry's recorded `FileSize` attribute (the
handle-tracked size) whenever the open count is positive; with the open
count not positive the entry goes through `maybeLoadEntry` (which reloads
from the remote service when the cache may be stale: entry absent or
hard-linked) and the size reported is the persisted `filer.FileSize` of the
entry obtained. -/
theorem c7_attr_size_open_vs_persisted (f : File) (remote : Except Err (Option Entry))
    (e : Entry) (f1 : File) :
    (f.isOpen > 0 → f.entry = some e →
      attrSizeOf (AttrF f remote) = some e.attributes.fileSize)
    ∧ (f.isOpen ≤ 0 → maybeLoadEntryF f remote = Except.ok (some e, f1) →
      attrSizeOf (AttrF f remote) = some (FileSize e)) := by
  constructor
  · intro ho he
    have hcond : ¬ (f.isOpen ≤ 0 ∨ f.entry = none) := by
      push_neg
      exact ⟨ho, by simp [he]⟩
    unfold AttrF
    dsimp only
    rw [if_neg hcond, he]
    simp [attrSizeOf, ho]
  · intro ho hm
    have hcond : f.isOpen ≤ 0 ∨ f.entry = none := Or.inl ho
    have hno : ¬ f1.isOpen > 0 := by
      rw [(maybeLoadEntryF_frame f remote (some e) f1 hm).2]
      exact not_lt.mpr ho
    unfold AttrF
    dsimp only
    rw [if_pos hcond, hm]
    simp [attrSizeOf, hno]

/-- Witness for C7: with a handle open `Attr` reports the recorded
attribute size; with none it reports the persisted size. -/
theorem c7_attr_size_open_vs_persisted_witness :
    attrSizeOf (AttrF fileAttrOpen remoteUnused) = some entryW.attributes.fileSize ∧
    attrSizeOf (AttrF fileAttrClosed remoteUnused) = some (FileSize entryW) :=
  ⟨(c7_attr_size_open_vs_persisted fileAttrOpen remoteUnused entryW fileAttrOpen).1
      (by decide) rfl,
   (c7_attr_size_open_vs_persisted fileAttrClosed remoteUnused entryW fileAttrClosed).2
      (by decide) rfl⟩

/-- C8: when the remote `UpdateEntry` fails, `saveEntry` returns `EIO` and
the whole state is returned unchanged — in particular the metadata-cache
mirror and the node's dirty flag keep their values; when it succeeds the
mirror is updated with the flushed entry (and the dirty flag is again
untouched, see C9). -/
theorem c8_saveEntry_failure_and_success (st : St) (e : Entry) :
    (st.wfs.updateOk = false →
      saveEntryF st e = (st, Except.error Err.eio))
    ∧ (st.wfs.updateOk = true →
      saveEntryF st e =
        ({ st with wfs := { st.wfs with metaCache := some e } }, Except.ok ())) := by
  constructor <;> intro h <;> simp [saveEntryF, h]

/-- Dirty node whose remote rejects updates. -/
def stSaveFail : St :=
  { file := { entry := some entryW, entryViewCache := [], isOpen := 0
            , reader := none, dirtyMetadata := true }
  , wfs := { metaCache := none, updateOk := false } }

/-- Dirty node whose remote accepts updates. -/
def stSaveOk : St :=
  { stSaveFail with wfs := { metaCache := none, updateOk := true } }

/-- Witness for C8: a failed flush yields `EIO` with the state unchanged; a
successful one updates the mirror. -/
theorem c8_saveEntry_failure_and_success_witness :
    saveEntryF stSaveFail entryW = (stSaveFail, Except.error Err.eio) ∧
    saveEntryF stSaveOk entryW =
      ({ stSaveOk with wfs := { stSaveOk.wfs with metaCache := some entryW } }, Except.ok ()) :=
  ⟨(c8_saveEntry_failure_and_success stSaveFail entryW).1 rfl,
   (c8_saveEntry_failure_and_success stSaveOk entryW).2 rfl⟩

/-- C9: the dirty flag is monotone.  No operation of the File node ever
clears `dirtyMetadata` — each embedded operation either sets it or leaves
it untouched, and in particular a successful `saveEntry` does not reset it.
Consequently, once set, a later `Setattr` carrying no valid bits, run with
no open handle, still invokes the remote flush. -/
theorem c9_dirty_monotone (st : St) (e : Entry) (req req0 : SetattrRequest)
    (xreq : XattrReq) (cs : List FileChunk) (remote : Except Err (Option Entry))
    (hd : st.file.dirtyMetadata = true) :
    (setattrWithEntry st e req).1.file.dirtyMetadata = true
    ∧ (SetxattrF st xreq remote).1.file.dirtyMetadata = true
    ∧ (RemovexattrF st xreq remote).1.file.dirtyMetadata = true
    ∧ (∀ g, addChunksF st.file cs = some g → g.dirtyMetadata = true)
    ∧ (setEntryF st.file e).dirtyMetadata = true
    ∧ (clearEntryF st.file).dirtyMetadata = true
    ∧ (forgetF st.file).dirtyMetadata = true
    ∧ (saveEntryF st e).1.file.dirtyMetadata = true
    ∧ (∀ eo g, maybeLoadEntryF st.file remote = Except.ok (eo, g) → g.dirtyMetadata = true)
    ∧ (∀ a g, AttrF st.file remote = Except.ok (a, g) → g.dirtyMetadata = true)
    ∧ (∀ out, SetattrF st req remote = some out → out.1.file.dirtyMetadata = true)
    ∧ (anyValidBit req0.valid = false → ¬ st.file.isOpen > 0 →
        (setattrWithEntry st e req0).2.1 = true) := by
  refine ⟨?_, ?_, ?_, ?_, hd, hd, hd, ?_, ?_, ?_, ?_, ?_⟩
  · rw [setattrWithEntry_dirty, hd]
    simp
  · rw [SetxattrF_dirty]
    exact hd
  · rw [RemovexattrF_dirty]
    exact hd
  · intro g h
    rw [(addChunksF_frame st.file cs g h).1]
    exact hd
  · rw [saveEntryF_file]
    exact hd
  · intro eo g h
    rw [(maybeLoadEntryF_frame st.file remote eo g h).1]
    exact hd
  · intro a g h
    rw [(AttrF_frame st.file remote a g h).1]
    exact hd
  · intro out h
    unfold SetattrF at h
    cases hm : maybeLoadEntryF st.file remote with
    | error er =>
        rw [hm] at h
        cases Option.some.inj h
        exact hd
    | ok p =>
        obtain ⟨eo, f1⟩ := p
        rw [hm] at h
        cases eo with
        | none => exact Option.noConfusion h
        | some e1 =>
            cases Option.some.inj h
            rw [setattrWithEntry_dirty]
            have hf1 : f1.dirtyMetadata = true := by
              rw [(maybeLoadEntryF_frame st.file remote (some e1) f1 hm).1]
              exact hd
            simp [hf1]
  · intro h0 hopen
    rw [setattrWithEntry_flushed]
    exact ⟨le_of_not_lt hopen, by simp [hd]⟩

/-- Dirty closed node used by the monotonicity witness. -/
def stDirty : St :=
  { file := { entry := some entryW, entryViewCache := [], isOpen := 0
            , reader := none, dirtyMetadata := true }
  , wfs := { metaCache := none, updateOk := true } }

/-- A `Setattr` request with no valid bits (changes nothing). -/
def reqNoop : SetattrRequest :=
  { valid := { size := false, mode := false, uid := false, gid := false
             , crtime := false, mtime := false }
  , size := 0, mode := 0, uid := 0, gid := 0, crtime := 0, mtime := 0 }

/-- Witness for C9: on a concrete dirty node a successful `saveEntry`
leaves the flag set, and a no-change `Setattr` still flushes. -/
theorem c9_dirty_monotone_witness :
    (saveEntryF stDirty entryW).1.file.dirtyMetadata = true ∧
    (setattrWithEntry stDirty entryW reqNoop).2.1 = true :=
  ⟨(c9_dirty_monotone stDirty entryW reqTrunc reqNoop reqXattr [chunkOldest]
      remoteUnused rfl).2.2.2.2.2.2.2.1,
   (c9_dirty_monotone stDirty entryW reqTrunc reqNoop reqXattr [chunkOldest]
      remoteUnused rfl).2.2.2.2.2.2.2.2.2.2.2 rfl (by decide)⟩
